import Mathlib

/-!
Verification of the trend-discovery pipeline (news-app).

Shallow embedding of the numeric and stateful core of
`scripts/trend_engine.py`, `scripts/feed_crawler.py` and
`scripts/discover_trends.py`.  Python floats are modelled as exact reals
(`ℝ`) where transcendental functions (`math.exp`, `math.sqrt`) occur, and
as exact rationals (`ℚ`) elsewhere; machine `int`s are `ℤ`.
-/

/- ==================== Module constants (trend_engine.py, 配置) ==================== -/

/-- ALPHA, the frequency weight (trend_engine.py line 57). -/
def ALPHA : ℝ := 0.4

/-- BETA, the acceleration weight (line 58). -/
def BETA : ℝ := 0.3

/-- GAMMA, the source-diversity weight (line 59). -/
def GAMMA : ℝ := 0.2

/-- DELTA, the engagement weight (line 60). -/
def DELTA : ℝ := 0.1

/-- HALF_LIFE_HOURS (line 63). -/
def HALF_LIFE_HOURS : ℝ := 4.0

/-- LAMBDA_DECAY = ln 2 / half-life (line 64). -/
noncomputable def LAMBDA_DECAY : ℝ := Real.log 2 / HALF_LIFE_HOURS

/-- BURST_Z_THRESHOLD (line 67). -/
def BURST_Z_THRESHOLD : ℝ := 2.5

/-- MACD short EMA window (line 68). -/
def MACD_SHORT_PERIOD : ℕ := 12

/-- MACD long EMA window (line 69). -/
def MACD_LONG_PERIOD : ℕ := 26

/-- MACD signal EMA window (line 70). -/
def MACD_SIGNAL_PERIOD : ℕ := 9

/-- HISTORY_WINDOWS, the per-keyword window cap (line 74). -/
def HISTORY_WINDOWS : ℕ := 144

/- ==================== HeatScorer (trend_engine.py 679-750) ==================== -/

/-- Exact-real model of Python `round(x, 2)`: round `x` to two decimal
places.  (Python uses round-half-even on binary floats; here we use the
mathematical `round`.  The theorems below never depend on the behaviour at
half-way points except where noted.) -/
noncomputable def round2 (x : ℝ) : ℝ := ((round (x * 100) : ℤ) : ℝ) / 100

/-- `HeatScorer.compute_heat` (trend_engine.py lines 680-719), minus the
unused `keyword` argument: decayed frequency, clamped normalisations,
weighted sum, map to 0-100, round to two decimals. -/
noncomputable def compute_heat (freq : ℤ) (acceleration : ℝ) (source_count : ℕ)
    (engagement : ℝ) (hours_since_peak : ℝ) : ℝ :=
  let freq_with_decay := (freq : ℝ) * Real.exp (-LAMBDA_DECAY * hours_since_peak)
  let f_norm := min (freq_with_decay / 10.0) 10.0
  let a_norm := max (min (acceleration / 5.0) 5.0) (-5.0)
  let s_norm := (source_count : ℝ) / 3.0
  let e_norm := min engagement 1.0
  let raw_score := ALPHA * f_norm + BETA * max 0 a_norm + GAMMA * s_norm + DELTA * e_norm
  let heat := min 100.0 (raw_score * 15.0)
  round2 heat

/-- The burst / MACD post-multipliers applied to the heat value inside
`TrendEngine._score_and_rank` (trend_engine.py lines 1027-1033). -/
noncomputable def apply_boosts (heat : ℝ) (is_burst : Bool) (macd_signal : String) : ℝ :=
  let h1 := if is_burst then min 100 (heat * 1.5) else heat
  if macd_signal = "bullish" then min 100 (h1 * 1.2) else h1

/-- The final `heat_score` stored on a `TrendTopic`: `compute_heat`
followed by the post-multipliers, exactly as `_score_and_rank` composes
them. -/
noncomputable def heat_score_final (freq : ℤ) (acceleration : ℝ) (source_count : ℕ)
    (engagement : ℝ) (hours_since_peak : ℝ) (is_burst : Bool) (macd_signal : String) : ℝ :=
  apply_boosts (compute_heat freq acceleration source_count engagement hours_since_peak)
    is_burst macd_signal

/-- Clamp of `x` to the interval `[lo, hi]`, as written in the spec. -/
def clampR (lo hi x : ℝ) : ℝ := max lo (min x hi)

/-- Heat score exactly as claim C1 states it: the raw 0-100 heat, then the
post-multipliers each clamped to 100, and the final result rounded to two
decimals (rounding LAST). -/
noncomputable def heat_score_claimC1 (freq : ℤ) (acceleration : ℝ) (source_count : ℕ)
    (engagement : ℝ) (hours_since_peak : ℝ) (is_burst : Bool) (macd_signal : String) : ℝ :=
  let lam := Real.log 2 / 4
  let raw := 0.4 * min ((freq : ℝ) * Real.exp (-lam * hours_since_peak) / 10) 10
      + 0.3 * max 0 (clampR (-5) 5 (acceleration / 5))
      + 0.2 * ((source_count : ℝ) / 3)
      + 0.1 * min engagement 1
  let heat := min 100 (15 * raw)
  let h1 := if is_burst then min 100 (heat * 1.5) else heat
  let h2 := if macd_signal = "bullish" then min 100 (h1 * 1.2) else h1
  round2 h2

/-- Heat score as claim C1 must be amended: identical to the claim except
that the two-decimal rounding is applied to the 0-100 heat BEFORE the
burst/bullish multipliers, and the multiplied result is not rounded
again. -/
noncomputable def heat_score_amendedC1 (freq : ℤ) (acceleration : ℝ) (source_count : ℕ)
    (engagement : ℝ) (hours_since_peak : ℝ) (is_burst : Bool) (macd_signal : String) : ℝ :=
  let lam := Real.log 2 / 4
  let raw := 0.4 * min ((freq : ℝ) * Real.exp (-lam * hours_since_peak) / 10) 10
      + 0.3 * max 0 (clampR (-5) 5 (acceleration / 5))
      + 0.2 * ((source_count : ℝ) / 3)
      + 0.1 * min engagement 1
  let heat := round2 (min 100 (15 * raw))
  let h1 := if is_burst then min 100 (heat * 1.5) else heat
  if macd_signal = "bullish" then min 100 (h1 * 1.2) else h1

/- ==================== HeatScorer.determine_direction (lines 721-750) ==================== -/

/-- `HeatScorer.determine_direction` (trend_engine.py lines 722-750).
Exact-rational model of the float change rate. -/
def determine_direction (counts : List ℤ) : String :=
  if counts.length < 2 then "→"
  else
    let current := counts[counts.length - 1]!
    let prev := counts[counts.length - 2]!
    let previous : ℤ := if 0 < prev then prev else 1
    let change_rate : ℚ := ((current : ℚ) - (previous : ℚ)) / (previous : ℚ)
    if 0.5 < change_rate then "↑"
    else if 0.1 < change_rate then "↗"
    else if -0.1 < change_rate then "→"
    else if -0.5 < change_rate then "↘"
    else "↓"

/-- Direction exactly as claim C6 states it: ratio
`r = (x[n-1] − x[n-2]) / max(x[n-2], 1)` with `→` on the closed interval
`[−0.1, 0.1]` and `↘` on the open interval `(−0.5, −0.1)`. -/
def direction_claimC6 (counts : List ℤ) : String :=
  if counts.length < 2 then "→"
  else
    let current := counts[counts.length - 1]!
    let prev := counts[counts.length - 2]!
    let r : ℚ := ((current : ℚ) - (prev : ℚ)) / (max (prev : ℚ) 1)
    if 0.5 < r then "↑"
    else if 0.1 < r ∧ r ≤ 0.5 then "↗"
    else if -0.1 ≤ r ∧ r ≤ 0.1 then "→"
    else if -0.5 < r ∧ r < -0.1 then "↘"
    else "↓"

/- ==================== BurstDetector.z_score_detect (lines 527-556) ==================== -/

/-- Mean of the historical part of a series, as `sum/len` over `ℝ`. -/
noncomputable def seriesMean (l : List ℤ) : ℝ := ((l.sum : ℤ) : ℝ) / (l.length : ℝ)

/-- Population variance of a series about `m`, as in the source:
`sum((x - mean)**2 for x in historical) / len(historical)`. -/
noncomputable def seriesVariance (l : List ℤ) (m : ℝ) : ℝ :=
  (l.map (fun x => ((x : ℝ) - m) ^ 2)).sum / (l.length : ℝ)

/-- `BurstDetector.z_score_detect` (trend_engine.py lines 528-556).
Returns the z-score together with the burst proposition
`z > BURST_Z_THRESHOLD`.  The source sets `std = sqrt(variance)` when
`variance > 0` and `1.0` otherwise, then divides (guarded by a dead
`std > 0` test). -/
noncomputable def z_score_detect (counts : List ℤ) : ℝ × Prop :=
  if counts.length < 3 then (0, False)
  else
    let current : ℝ := (counts[counts.length - 1]! : ℝ)
    let historical := counts.dropLast
    let mean := seriesMean historical
    let variance := seriesVariance historical mean
    let std := if 0 < variance then Real.sqrt variance else 1
    let z := if 0 < std then (current - mean) / std else 0
    (z, BURST_Z_THRESHOLD < z)

/-- Z-score exactly as claim C2 states it: the divisor is `max(σ, 1)`
where `σ` is the population standard deviation of the historical part. -/
noncomputable def z_score_claimC2 (counts : List ℤ) : ℝ × Prop :=
  if counts.length < 3 then (0, False)
  else
    let current : ℝ := (counts[counts.length - 1]! : ℝ)
    let historical := counts.dropLast
    let mean := seriesMean historical
    let sigma := Real.sqrt (seriesVariance historical mean)
    let z := (current - mean) / max sigma 1
    (z, (2.5 : ℝ) < z)

/-- Z-score as claim C2 must be amended: the divisor is `σ` itself when
`σ > 0` and `1` when `σ = 0` (so a standard deviation strictly between 0
and 1 is NOT raised to 1). -/
noncomputable def z_score_amendedC2 (counts : List ℤ) : ℝ × Prop :=
  if counts.length < 3 then (0, False)
  else
    let current : ℝ := (counts[counts.length - 1]! : ℝ)
    let historical := counts.dropLast
    let mean := seriesMean historical
    let sigma := Real.sqrt (seriesVariance historical mean)
    let z := (current - mean) / (if 0 < sigma then sigma else 1)
    (z, (2.5 : ℝ) < z)

/- ==================== BurstDetector.ema / macd_detect (lines 558-622) ==================== -/

/-- `BurstDetector.ema` (trend_engine.py lines 559-571):
`e[0] = x[0]`, `e[i] = (x[i] − e[i−1])·(2/(p+1)) + e[i−1]`.  Exact
rationals stand for the source floats. -/
def ema (values : List ℚ) (period : ℕ) : List ℚ :=
  match values with
  | [] => []
  | v :: vs =>
    List.scanl (fun prev val => (val - prev) * (2 / ((period : ℚ) + 1)) + prev) v vs

/-- `BurstDetector.macd_detect` (trend_engine.py lines 573-622).  The
source guards (`if not signal_line or not macd_line`, the `len ≥ 2`
crossover guard) are reproduced verbatim. -/
def macd_detect (counts : List ℤ) : ℚ × String :=
  if counts.length < MACD_LONG_PERIOD then (0, "neutral")
  else
    let float_counts : List ℚ := counts.map (fun c : ℤ => (c : ℚ))
    let short_ema := ema float_counts MACD_SHORT_PERIOD
    let long_ema := ema float_counts MACD_LONG_PERIOD
    let macd_line := List.zipWith (fun s l => s - l) short_ema long_ema
    let signal_line := ema macd_line MACD_SIGNAL_PERIOD
    if signal_line = [] ∨ macd_line = [] then (0, "neutral")
    else
      let macd_current := macd_line[macd_line.length - 1]!
      let signal_current := signal_line[signal_line.length - 1]!
      let crossed : Option (ℚ × String) :=
        if 2 ≤ macd_line.length ∧ 2 ≤ signal_line.length then
          let prev_diff := macd_line[macd_line.length - 2]! - signal_line[signal_line.length - 2]!
          let curr_diff := macd_current - signal_current
          if prev_diff ≤ 0 ∧ 0 < curr_diff then some (macd_current, "bullish")
          else if 0 ≤ prev_diff ∧ curr_diff < 0 then some (macd_current, "bearish")
          else none
        else none
      match crossed with
      | some res => res
      | none =>
        if signal_current < macd_current then (macd_current, "bullish")
        else if macd_current < signal_current then (macd_current, "bearish")
        else (macd_current, "neutral")

/-- MACD as claim C5 states it: for `n ≥ 26`, index the MACD line and
signal line directly at `n−1` and `n−2` and apply the golden-cross /
death-cross / comparison rules. -/
def macd_claimC5 (counts : List ℤ) : ℚ × String :=
  if counts.length < 26 then (0, "neutral")
  else
    let n := counts.length
    let x : List ℚ := counts.map (fun c : ℤ => (c : ℚ))
    let shortE := ema x 12
    let longE := ema x 26
    let macd := List.zipWith (fun s l => s - l) shortE longE
    let signal := ema macd 9
    let d_prev := macd[n - 2]! - signal[n - 2]!
    let d_curr := macd[n - 1]! - signal[n - 1]!
    if d_prev ≤ 0 ∧ 0 < d_curr then (macd[n - 1]!, "bullish")
    else if 0 ≤ d_prev ∧ d_curr < 0 then (macd[n - 1]!, "bearish")
    else if signal[n - 1]! < macd[n - 1]! then (macd[n - 1]!, "bullish")
    else if macd[n - 1]! < signal[n - 1]! then (macd[n - 1]!, "bearish")
    else (macd[n - 1]!, "neutral")

/- ==================== TimeSeriesStore.record (trend_engine.py 455-485) ==================== -/

/-- One entry of a keyword's `windows` list (storage layout documented at
trend_engine.py lines 422-430).  Timestamps are abstracted to naturals:
`record` only ever copies the timestamp value. -/
structure KeywordWindow where
  time : ℕ
  count : ℤ
  platforms : List String
  engagement : ℚ
deriving DecidableEq, Repr

/-- Per-keyword history record `self.data[keyword]`. -/
structure KeywordHistory where
  windows : List KeywordWindow
  first_seen : ℕ
  peak_count : ℤ
  peak_time : ℕ
deriving DecidableEq, Repr

/-- Arguments of one `TimeSeriesStore.record` call for a fixed keyword. -/
structure RecordCall where
  count : ℤ
  platforms : List String
  engagement : ℚ
  window_time : ℕ
deriving DecidableEq, Repr

/-- `TimeSeriesStore.record` (trend_engine.py lines 455-485) restricted
to a single keyword: `prev = none` models `keyword not in self.data`.
Append a window, update the peak when `count > peak_count`, and keep only
the newest `HISTORY_WINDOWS` windows when the cap is exceeded
(`rec['windows'][-HISTORY_WINDOWS:]`). -/
def record (prev : Option KeywordHistory) (c : RecordCall) : KeywordHistory :=
  let rec0 := prev.getD { windows := [], first_seen := c.window_time,
                          peak_count := 0, peak_time := c.window_time }
  let rec1 := { rec0 with
    windows := rec0.windows ++
      [{ time := c.window_time, count := c.count,
         platforms := c.platforms, engagement := c.engagement }] }
  let rec2 := if rec1.peak_count < c.count then
      { rec1 with peak_count := c.count, peak_time := c.window_time }
    else rec1
  if HISTORY_WINDOWS < rec2.windows.length then
    { rec2 with windows := rec2.windows.drop (rec2.windows.length - HISTORY_WINDOWS) }
  else rec2

/-- The state after a nonempty sequence of `record` calls (first call
`c`, then `cs` in order) for one keyword that starts absent from
`self.data`. -/
def record_seq (c : RecordCall) (cs : List RecordCall) : KeywordHistory :=
  cs.foldl (fun s c' => record (some s) c') (record none c)

/- ==================== RateLimiter (feed_crawler.py 124-191) ==================== -/

/-- Lookup in a string-keyed association map with a default, modelling
Python `dict.get(key, default)`. -/
def dictGet {α : Type} (m : List (String × α)) (k : String) (d : α) : α :=
  ((m.find? (fun p => p.1 = k)).map Prod.snd).getD d

/-- Assignment `m[k] = v` on a string-keyed association map. -/
def dictSet {α : Type} (m : List (String × α)) (k : String) (v : α) : List (String × α) :=
  (k, v) :: m.filter (fun p => p.1 ≠ k)

/-- The `RateLimiter` state (feed_crawler.py lines 132-138).  Wall-clock
times are exact rationals; the sleeping itself is unmodelled (it has no
effect on the maps). -/
structure RateLimiter where
  last_request : List (String × ℚ)
  penalties : List (String × ℚ)
  blocked : List (String × String)
  fail_count : List (String × ℕ)
deriving DecidableEq, Repr

/-- `RateLimiter.is_blocked` (lines 140-142). -/
def RateLimiter.is_blocked (rl : RateLimiter) (domain : String) : Bool :=
  rl.blocked.any (fun p => p.1 = domain)

/-- `RateLimiter.block` (lines 144-148): records a reason only for a
domain not yet blocked; never removes an entry. -/
def RateLimiter.block (rl : RateLimiter) (domain reason : String) : RateLimiter :=
  if rl.is_blocked domain then rl
  else { rl with blocked := (domain, reason) :: rl.blocked }

/-- `RateLimiter.record_fail` (lines 150-153): bump and return the
consecutive-failure count. -/
def RateLimiter.record_fail (rl : RateLimiter) (domain : String) : RateLimiter × ℕ :=
  let n := dictGet rl.fail_count domain 0 + 1
  ({ rl with fail_count := dictSet rl.fail_count domain n }, n)

/-- `RateLimiter.reset_fail` (lines 155-157). -/
def RateLimiter.reset_fail (rl : RateLimiter) (domain : String) : RateLimiter :=
  { rl with fail_count := dictSet rl.fail_count domain 0 }

/-- `RateLimiter.wait` (lines 159-176): a blocked domain returns with no
state change; otherwise only `last_request[domain]` is updated (the sleep
is timing, not state).  `now` abstracts `time.time()`. -/
def RateLimiter.wait (rl : RateLimiter) (domain : String) (now : ℚ) : RateLimiter :=
  if rl.is_blocked domain then rl
  else { rl with last_request := dictSet rl.last_request domain now }

/-- `RateLimiter.penalize` (lines 178-182): multiply the penalty factor,
capped at 5. -/
def RateLimiter.penalize (rl : RateLimiter) (domain : String) (factor : ℚ) : RateLimiter :=
  let current := dictGet rl.penalties domain 1
  { rl with penalties := dictSet rl.penalties domain (min (current * factor) 5) }

/-- `RateLimiter.reset_penalty` (lines 184-187): halve (floored at 1)
only when the domain already has a penalty entry. -/
def RateLimiter.reset_penalty (rl : RateLimiter) (domain : String) : RateLimiter :=
  if rl.penalties.any (fun p => p.1 = domain) then
    let halved := max 1 (dictGet rl.penalties domain 1 * (1 / 2))
    { rl with penalties := dictSet rl.penalties domain halved }
  else rl

/-- Every public mutation of the process-global `rate_limiter`. -/
inductive LimiterOp where
  | block (domain reason : String)
  | recordFail (domain : String)
  | resetFail (domain : String)
  | wait (domain : String) (now : ℚ)
  | penalize (domain : String) (factor : ℚ)
  | resetPenalty (domain : String)
deriving DecidableEq, Repr

/-- Apply one limiter operation. -/
def applyLimiterOp (rl : RateLimiter) : LimiterOp → RateLimiter
  | LimiterOp.block d r => rl.block d r
  | LimiterOp.recordFail d => (rl.record_fail d).1
  | LimiterOp.resetFail d => rl.reset_fail d
  | LimiterOp.wait d now => rl.wait d now
  | LimiterOp.penalize d f => rl.penalize d f
  | LimiterOp.resetPenalty d => rl.reset_penalty d

/-- Apply a sequence of limiter operations in order. -/
def applyLimiterOps (rl : RateLimiter) (ops : List LimiterOp) : RateLimiter :=
  ops.foldl applyLimiterOp rl

/- ==================== BaseCrawler.safe_request (feed_crawler.py 239-333) ==================== -/

/-- What the network produces for one attempted request: a response with
a status code and an optional integral `Retry-After` header, or a raised
transport exception. -/
inductive NetOutcome where
  | response (status : ℕ) (retryAfter : Option ℕ)
  | exn
deriving DecidableEq, Repr

/-- The retry loop body of `BaseCrawler.safe_request` (feed_crawler.py
lines 258-333).  `net a` is the outcome of the request made on attempt
index `a`; `fuel` is the number of loop iterations left
(`max_retries − attempt`); the result is the limiter state, the returned
response status (`none` models Python `None`), and the total number of
requests attempted.  Sleeps are timing-only and dropped; `raise_for_status`
raises exactly for statuses ≥ 400, landing in the generic `except` branch
which retries with no limiter-state change. -/
def attemptRequests (rl : RateLimiter) (domain : String) (net : ℕ → NetOutcome)
    (max_retries : ℕ) : ℕ → ℕ → ℕ → RateLimiter × Option ℕ × ℕ
  | _, made, 0 => (rl, none, made)
  | attempt, made, fuel + 1 =>
    let rl1 := rl.wait domain (attempt : ℚ)
    let made1 := made + 1
    match net attempt with
    | NetOutcome.exn => attemptRequests rl1 domain net max_retries (attempt + 1) made1 fuel
    | NetOutcome.response status retryAfter =>
      if status = 401 then
        let (rl2, fails) := rl1.record_fail domain
        let rl3 := if 1 ≤ fails then rl2.block domain "401 login required" else rl2
        (rl3, none, made1)
      else if status = 403 then
        let (rl2, fails) := rl1.record_fail domain
        if retryAfter.isSome ∧ attempt < max_retries - 1 then
          attemptRequests rl2 domain net max_retries (attempt + 1) made1 fuel
        else if 2 ≤ fails then
          (rl2.block domain "403 access denied", none, made1)
        else
          attemptRequests rl2 domain net max_retries (attempt + 1) made1 fuel
      else if status = 429 then
        attemptRequests (rl1.penalize domain 2) domain net max_retries (attempt + 1) made1 fuel
      else if status = 412 then
        let (rl2, fails) := rl1.record_fail domain
        if 2 ≤ fails then (rl2.block domain "412 risk control", none, made1)
        else attemptRequests (rl2.penalize domain 3) domain net max_retries (attempt + 1) made1 fuel
      else if 400 ≤ status then
        attemptRequests rl1 domain net max_retries (attempt + 1) made1 fuel
      else
        (((rl1.reset_penalty domain).reset_fail domain), some status, made1)

/-- `BaseCrawler.safe_request` with `max_retries = 3` (the default): a
blocked domain short-circuits to `None` before any attempt. -/
def safe_request (rl : RateLimiter) (domain : String) (net : ℕ → NetOutcome) :
    RateLimiter × Option ℕ × ℕ :=
  if rl.is_blocked domain then (rl, none, 0)
  else attemptRequests rl domain net 3 0 0 3

/- ==================== ChineseNLP.batch_extract_keywords (284-312) ==================== -/

/-- Membership of a word in a keyword top-set, modelling `word in dict`. -/
def inTopSet (kws : List (String × ℚ)) (w : String) : Bool :=
  kws.any (fun p => p.1 = w)

/-- The fused score of one word (trend_engine.py lines 302-309):
`(tf + tr) * 1.5` when the word occurs in both top-sets, else `tf + tr`,
with `dict.get(word, 0)` semantics for the individual weights. -/
def fusedScore (tfidf_kws textrank_kws : List (String × ℚ)) (w : String) : ℚ :=
  let tf_score := dictGet tfidf_kws w 0
  let tr_score := dictGet textrank_kws w 0
  if inTopSet tfidf_kws w ∧ inTopSet textrank_kws w then (tf_score + tr_score) * 1.5
  else tf_score + tr_score

/-- Descending order on fused-score pairs (`sorted(..., key=-score)`). -/
def scoreGE (a b : String × ℚ) : Prop := b.2 ≤ a.2

instance : DecidableRel scoreGE :=
  fun a b => inferInstanceAs (Decidable (b.2 ≤ a.2))

instance : IsTotal (String × ℚ) scoreGE :=
  ⟨fun a b => le_total b.2 a.2⟩

instance : IsTrans (String × ℚ) scoreGE :=
  ⟨fun _ _ _ h1 h2 => le_trans h2 h1⟩

/-- The fusion-and-ranking core of `ChineseNLP.batch_extract_keywords`
(trend_engine.py lines 296-312).  The two inputs are the outputs of the
TF-IDF and TextRank extractors (external `jieba.analyse` calls, each
already truncated to `2*topK` by the caller); `all_words` is the key-set
union; the fused pairs are sorted by score descending and truncated to
`topK`. -/
def batch_extract_keywords (tfidf_kws textrank_kws : List (String × ℚ))
    (topK : ℕ) : List (String × ℚ) :=
  let all_words := (tfidf_kws.map Prod.fst ++ textrank_kws.map Prod.fst).dedup
  let scores := all_words.map (fun w => (w, fusedScore tfidf_kws textrank_kws w))
  (List.insertionSort scoreGE scores).take topK

/- ==================== TimeSeriesStore._load / save (438-453) ==================== -/

/-- The outcome of `open(...)` + `json.load(...)` on the history file:
`none` when the file does not exist, `Except.error` when reading or JSON
decoding raises (`json.JSONDecodeError`, `IOError`), `Except.ok` with the
decoded keyword map otherwise. -/
def ReadResult := Option (Except String (List (String × KeywordHistory)))

/-- `TimeSeriesStore._load` (trend_engine.py lines 438-446) as it
determines `self.data`: `self.data = {}` from `__init__` survives when
the file is absent or when decoding raises; a successful decode replaces
it.  The function is total — no exception escapes the constructor. -/
def ts_load (read_result : ReadResult) : List (String × KeywordHistory) :=
  match read_result with
  | none => []
  | some (Except.ok d) => d
  | some (Except.error _) => []

/-- `TimeSeriesStore.save` (trend_engine.py lines 448-453) writes
`json.dump(self.data)` unconditionally: the payload that overwrites the
backing file is exactly the current data. -/
def ts_save (data : List (String × KeywordHistory)) : List (String × KeywordHistory) :=
  data

/- ==================== merge_trends_to_news (discover_trends.py 240-332) ==================== -/

/-- The `trend_data` sub-object attached to a synthetic news item
(discover_trends.py lines 307-317). -/
structure TrendData where
  heat_score : ℚ
  frequency : ℤ
  acceleration : ℚ
  is_burst : Bool
  z_score : ℚ
  macd_signal : String
  direction : String
  platforms : List String
  sparkline : List ℤ
deriving DecidableEq, Repr

/-- The fields of a news.json item that `merge_trends_to_news` reads or
writes.  (The `id`, built from an md5 hex digest, and the formatted
`summary`, `link` and `image` strings are external-library string
productions not needed by any claim and are omitted.) -/
structure NewsItem where
  title : String
  source : String
  source_icon : String
  category : String
  lang : String
  pub_date : String
  fetch_time : String
  importance : ℕ
  priority : ℕ
  hot_value : ℤ
  is_discovered_trend : Bool
  trend_data : Option TrendData
deriving DecidableEq, Repr

/-- The `TrendTopic` fields consumed by `merge_trends_to_news`. -/
structure TrendTopic where
  keyword : String
  heat_score : ℚ
  frequency : ℤ
  acceleration : ℚ
  is_burst : Bool
  burst_z_score : ℚ
  macd_signal : String
  trend_direction : String
  platforms : List String
  related_titles : List String
  category : String
  sparkline : List ℤ
  peak_time : String
deriving DecidableEq, Repr

/-- Python `int()` truncation toward zero on an exact rational. -/
def pyInt (q : ℚ) : ℤ := Int.tdiv q.num (q.den : ℤ)

/-- The synthetic news item built for one trend (discover_trends.py
lines 268-318), including the importance ladder and the
`heat_score * 1000` hot value. -/
def mkTrendNewsItem (t : TrendTopic) (now : String) : NewsItem :=
  { title := t.trend_direction ++ " " ++ t.keyword
    source := "🔬 热点发现"
    source_icon := "🔬"
    category := if t.category = "" then "时事" else t.category
    lang := "zh"
    pub_date := if t.peak_time = "" then now else t.peak_time
    fetch_time := now
    importance := if t.is_burst then 5
      else if 60 ≤ t.heat_score then 4
      else if 30 ≤ t.heat_score then 3
      else 3
    priority := 0
    hot_value := pyInt (t.heat_score * 1000)
    is_discovered_trend := true
    trend_data := some
      { heat_score := t.heat_score
        frequency := t.frequency
        acceleration := t.acceleration
        is_burst := t.is_burst
        z_score := t.burst_z_score
        macd_signal := t.macd_signal
        direction := t.trend_direction
        platforms := t.platforms
        sparkline := t.sparkline.drop (t.sparkline.length - 20) } }

/-- `merge_trends_to_news` (discover_trends.py lines 240-332) as the
transformation it performs on the `items` list of news.json: `none`
models the early `return` (no rewrite) for an empty trend list; otherwise
previously inserted discovered-trend items are removed, and the first 30
trends, filtered to heat ≥ 10, are appended as synthetic items. -/
def merge_trends_to_news (news_items : List NewsItem) (trends : List TrendTopic)
    (now : String) : Option (List NewsItem) :=
  if trends = [] then none
  else
    let kept := news_items.filter (fun n => n.source ≠ "🔬 热点发现")
    let added := ((trends.take 30).filter (fun t => ¬ t.heat_score < 10)).map
      (fun t => mkTrendNewsItem t now)
    some (kept ++ added)

/-- Direction as claim C6 must be amended: the previous count is clamped
to `p = max(x[n-2], 1)` in the NUMERATOR as well as the denominator
(`r = (x[n-1] − p)/p`), and the bands are the half-open intervals
`(0.5, ∞) → ↑`, `(0.1, 0.5] → ↗`, `(−0.1, 0.1] → →`, `(−0.5, −0.1] → ↘`,
`(−∞, −0.5] → ↓`. -/
def direction_amendedC6 (counts : List ℤ) : String :=
  if counts.length < 2 then "→"
  else
    let current := counts[counts.length - 1]!
    let prev := counts[counts.length - 2]!
    let p : ℚ := max (prev : ℚ) 1
    let r : ℚ := ((current : ℚ) - p) / p
    if 0.5 < r then "↑"
    else if 0.1 < r ∧ r ≤ 0.5 then "↗"
    else if -0.1 < r ∧ r ≤ 0.1 then "→"
    else if -0.5 < r ∧ r ≤ -0.1 then "↘"
    else "↓"

/- ==================== Helper views used by the theorems ==================== -/

/-- The window dict appended by one `record` call (trend_engine.py lines
471-476). -/
def mkWindow (c : RecordCall) : KeywordWindow :=
  { time := c.window_time, count := c.count,
    platforms := c.platforms, engagement := c.engagement }

/-- The windows list seen by `record` before appending: `[]` when the
keyword is absent. -/
def windowsOf (prev : Option KeywordHistory) : List KeywordWindow :=
  match prev with
  | none => []
  | some r => r.windows

/-- Peak consistency for a single keyword history: every stored window's
count is bounded by `peak_count`, and some stored window carries exactly
`peak_time` and `peak_count`. -/
def PeakInv (s : KeywordHistory) : Prop :=
  (∀ w ∈ s.windows, w.count ≤ s.peak_count) ∧
  (∃ w ∈ s.windows, w.time = s.peak_time ∧ w.count = s.peak_count)

/-- A concrete trend, used only to instantiate theorems at a sample
input. -/
def sampleTrend : TrendTopic :=
  { keyword := "测试", heat_score := 42, frequency := 7, acceleration := 1,
    is_burst := false, burst_z_score := 0, macd_signal := "neutral",
    trend_direction := "→", platforms := ["weibo"], related_titles := [],
    category := "科技", sparkline := [1, 2], peak_time := "t0" }

/- ==================================================================== -/
/- Theorems                                                             -/
/- ==================================================================== -/

/- ==================== C6: trend direction ==================== -/

/-- C6 counterexample: claim C6 fails on the code.  `determine_direction`
maps `[10, 16]` (rate 0.6) to `↑`, not the claimed `↗`; and at the exact
boundary rate `−0.1` (counts `[10, 9]`) the code yields `↘` while the
claim's band `−0.1 ≤ r ≤ 0.1 → →` demands `→`. -/
theorem determine_direction_claimC6_counterexample :
    determine_direction [10, 16] = "↑" ∧ "↑" ≠ "↗" ∧
    determine_direction [10, 9] = "↘" ∧ direction_claimC6 [10, 9] = "→" ∧ "↘" ≠ "→" := by
  refine ⟨by norm_num [determine_direction], by decide,
    by norm_num [determine_direction], by norm_num [direction_claimC6], by decide⟩

/-- The strict-threshold elif-chain of the source equals the half-open
band formulation, for any rate. -/
theorem direction_band_chain_eq (r : ℚ) :
    (if 0.5 < r then "↑" else if 0.1 < r then "↗"
     else if -0.1 < r then "→" else if -0.5 < r then "↘" else "↓")
    = (if 0.5 < r then "↑" else if 0.1 < r ∧ r ≤ 0.5 then "↗"
       else if -0.1 < r ∧ r ≤ 0.1 then "→" else if -0.5 < r ∧ r ≤ -0.1 then "↘" else "↓") := by
  by_cases h1 : 0.5 < r
  · simp [h1]
  · by_cases h2 : 0.1 < r
    · simp [h1, h2, not_lt.mp h1]
    · by_cases h3 : -0.1 < r
      · simp [h1, h2, h3, not_lt.mp h2]
      · by_cases h4 : -0.5 < r
        · simp [h1, h2, h3, h4, not_lt.mp h3]
        · simp [h1, h2, h3, h4]

/-- C6 amended: for every count series, `determine_direction` equals the
claimed classifier once (a) the previous count is clamped to
`max(x[n-2], 1)` in the numerator as well as the denominator, and (b) the
bands are half-open with the lower boundary of each band falling into the
band below (`r = −0.1` maps to `↘`, `r = −0.5` to `↓`), so that
`[10, 16]` maps to `↑`. -/
theorem determine_direction_eq_amendedC6 (counts : List ℤ) :
    determine_direction counts = direction_amendedC6 counts := by
  unfold determine_direction direction_amendedC6
  by_cases h : counts.length < 2
  · simp [h]
  · simp only [if_neg h]
    have hp : ((if 0 < counts[counts.length - 2]! then counts[counts.length - 2]! else 1 : ℤ) : ℚ)
        = max ((counts[counts.length - 2]! : ℤ) : ℚ) 1 := by
      split_ifs with h1
      · exact (max_eq_left (by exact_mod_cast h1)).symm
      · push_cast
        exact (max_eq_right (by exact_mod_cast (by omega : (counts[counts.length - 2]! : ℤ) ≤ 1))).symm
    rw [hp]
    exact direction_band_chain_eq _

/- ==================== C4: window cap ==================== -/

set_option maxRecDepth 8000 in
/-- C4 confirmed: from ANY prior per-keyword state (including one loaded
from disk with an oversized windows list), a `record` call leaves at most
`HISTORY_WINDOWS = 144` windows, and the windows list is exactly the
newest-144 suffix of the appended list (all of it when no eviction is
needed), preserving insertion order. -/
theorem record_window_capC4 (prev : Option KeywordHistory) (c : RecordCall) :
    (record prev c).windows.length ≤ HISTORY_WINDOWS ∧
    (record prev c).windows =
      (windowsOf prev ++ [mkWindow c]).drop
        ((windowsOf prev ++ [mkWindow c]).length - HISTORY_WINDOWS) := by
  have key : ∀ (ws : List KeywordWindow),
      (if HISTORY_WINDOWS < ws.length then ws.drop (ws.length - HISTORY_WINDOWS) else ws).length
          ≤ HISTORY_WINDOWS ∧
      (if HISTORY_WINDOWS < ws.length then ws.drop (ws.length - HISTORY_WINDOWS) else ws)
          = ws.drop (ws.length - HISTORY_WINDOWS) := by
    intro ws
    split_ifs with h
    · refine ⟨?_, rfl⟩
      simp only [List.length_drop]
      omega
    · have h0 : ws.length - HISTORY_WINDOWS = 0 := by omega
      rw [h0, List.drop_zero]
      exact ⟨by omega, rfl⟩
  have hw : (record prev c).windows =
      (if HISTORY_WINDOWS < (windowsOf prev ++ [mkWindow c]).length
       then (windowsOf prev ++ [mkWindow c]).drop
         ((windowsOf prev ++ [mkWindow c]).length - HISTORY_WINDOWS)
       else (windowsOf prev ++ [mkWindow c])) := by
    cases prev with
    | none =>
      unfold record windowsOf mkWindow
      dsimp only [Option.getD_none]
      by_cases hpk : (0 : ℤ) < c.count
      · rw [if_pos hpk]; dsimp only; split_ifs <;> rfl
      · rw [if_neg hpk]; dsimp only; split_ifs <;> rfl
    | some s =>
      unfold record windowsOf mkWindow
      dsimp only [Option.getD_some]
      by_cases hpk : s.peak_count < c.count
      · rw [if_pos hpk]; dsimp only; split_ifs <;> rfl
      · rw [if_neg hpk]; dsimp only; split_ifs <;> rfl
  rw [hw]
  exact key _

/- ==================== C3: peak consistency ==================== -/

/-- A first `record` call with a positive count sets the peak to that
count. -/
theorem record_first (c : RecordCall) (hpos : 0 < c.count) :
    record none c =
      { windows := [mkWindow c], first_seen := c.window_time,
        peak_count := c.count, peak_time := c.window_time } := by
  unfold record mkWindow
  dsimp only [Option.getD_none]
  rw [if_pos hpos, if_neg (by norm_num [HISTORY_WINDOWS])]
  simp

/-- A first `record` call with a non-positive count keeps the
initialisation peak of 0. -/
theorem record_first_nonpos (c : RecordCall) (hpos : ¬ 0 < c.count) :
    record none c =
      { windows := [mkWindow c], first_seen := c.window_time,
        peak_count := 0, peak_time := c.window_time } := by
  unfold record mkWindow
  dsimp only [Option.getD_none]
  rw [if_neg hpos, if_neg (by norm_num [HISTORY_WINDOWS])]
  simp

/-- A non-first `record` call that neither beats the peak nor overflows
the cap just appends its window. -/
theorem record_no_evict_no_peak (s : KeywordHistory) (c : RecordCall)
    (hlen : s.windows.length + 1 ≤ HISTORY_WINDOWS) (hpk : ¬ s.peak_count < c.count) :
    record (some s) c = { s with windows := s.windows ++ [mkWindow c] } := by
  unfold record mkWindow
  dsimp only [Option.getD_some]
  rw [if_neg hpk]
  dsimp only
  rw [if_neg (by simp only [List.length_append, List.length_cons, List.length_nil]; omega)]

/-- A non-first `record` call that beats the peak (and does not overflow
the cap) appends its window and moves the peak. -/
theorem record_no_evict_peak (s : KeywordHistory) (c : RecordCall)
    (hlen : s.windows.length + 1 ≤ HISTORY_WINDOWS) (hpk : s.peak_count < c.count) :
    record (some s) c =
      { windows := s.windows ++ [mkWindow c], first_seen := s.first_seen,
        peak_count := c.count, peak_time := c.window_time } := by
  unfold record mkWindow
  dsimp only [Option.getD_some]
  rw [if_pos hpk]
  dsimp only
  rw [if_neg (by simp only [List.length_append, List.length_cons, List.length_nil]; omega)]

/-- A `record` call on a state already holding exactly `HISTORY_WINDOWS`
windows appends and then drops the oldest window; a non-peak-beating
count leaves the peak fields untouched. -/
theorem record_evict_no_peak (s : KeywordHistory) (c : RecordCall)
    (hlen : s.windows.length = HISTORY_WINDOWS) (hpk : ¬ s.peak_count < c.count) :
    record (some s) c = { s with windows := (s.windows ++ [mkWindow c]).drop 1 } := by
  unfold record mkWindow
  dsimp only [Option.getD_some]
  rw [if_neg hpk]
  dsimp only
  rw [if_pos (by simp only [List.length_append, List.length_cons, List.length_nil]; omega)]
  have h1 : (s.windows ++
      [{ time := c.window_time, count := c.count,
         platforms := c.platforms, engagement := c.engagement : KeywordWindow }]).length
      - HISTORY_WINDOWS = 1 := by
    simp only [List.length_append, List.length_cons, List.length_nil]
    omega
  rw [h1]

/-- Folding `record` over replicated unit-count calls, while the peak
dominates and the cap is not reached, appends the corresponding windows
and changes nothing else. -/
theorem foldl_record_replicate (k : ℕ) :
    ∀ s : KeywordHistory, ¬ s.peak_count < 1 →
      s.windows.length + k ≤ HISTORY_WINDOWS →
      List.foldl (fun st c' => record (some st) c') s
          (List.replicate k (⟨1, [], 0, 1⟩ : RecordCall)) =
        { s with windows := s.windows ++ List.replicate k (mkWindow ⟨1, [], 0, 1⟩) } := by
  induction k with
  | zero => intro s _ _; simp
  | succ n ih =>
    intro s hpk hlen
    rw [List.replicate_succ, List.foldl_cons]
    rw [record_no_evict_no_peak s _ (by omega) hpk]
    rw [ih _ (by dsimp only; exact hpk)
      (by dsimp only; simp only [List.length_append, List.length_cons, List.length_nil]; omega)]
    dsimp only
    rw [List.append_assoc]
    rfl

/-- C3 counterexample: after the 145-call sequence that records count 100
once and then count 1 a hundred-and-forty-four times, FIFO eviction has
dropped the peak window: `peak_count` is still 100 while every retained
window has count 1, so `peak_count ≠ max(w.count)` and no window carries
the peak count, refuting the claim's "including after FIFO eviction"
clause. -/
theorem record_peak_claimC3_counterexample :
    (record_seq ⟨100, [], 0, 0⟩ (List.replicate 144 ⟨1, [], 0, 1⟩)).peak_count = 100 ∧
    (∀ w ∈ (record_seq ⟨100, [], 0, 0⟩ (List.replicate 144 ⟨1, [], 0, 1⟩)).windows,
        w.count = 1) ∧
    ¬ ∃ w ∈ (record_seq ⟨100, [], 0, 0⟩ (List.replicate 144 ⟨1, [], 0, 1⟩)).windows,
        w.count = (record_seq ⟨100, [], 0, 0⟩ (List.replicate 144 ⟨1, [], 0, 1⟩)).peak_count := by
  have h0 : record none (⟨100, [], 0, 0⟩ : RecordCall)
      = { windows := [mkWindow ⟨100, [], 0, 0⟩], first_seen := 0,
          peak_count := 100, peak_time := 0 } :=
    record_first _ (by norm_num)
  have hsplit : (List.replicate 144 (⟨1, [], 0, 1⟩ : RecordCall))
      = List.replicate 143 ⟨1, [], 0, 1⟩ ++ [⟨1, [], 0, 1⟩] := by
    rw [← List.replicate_succ']
  have hmain : record_seq ⟨100, [], 0, 0⟩ (List.replicate 144 ⟨1, [], 0, 1⟩)
      = { windows := (([mkWindow ⟨100, [], 0, 0⟩]
            ++ List.replicate 143 (mkWindow ⟨1, [], 0, 1⟩)) ++ [mkWindow ⟨1, [], 0, 1⟩]).drop 1,
          first_seen := 0, peak_count := 100, peak_time := 0 } := by
    unfold record_seq
    rw [h0, hsplit, List.foldl_append]
    rw [foldl_record_replicate 143 _ (by norm_num) (by simp [HISTORY_WINDOWS])]
    rw [List.foldl_cons, List.foldl_nil]
    rw [record_evict_no_peak _ _ (by simp [HISTORY_WINDOWS]) (by norm_num)]
  rw [hmain]
  refine ⟨rfl, ?_, ?_⟩
  · intro w hw
    simp only [List.cons_append, List.nil_append, List.drop_succ_cons, List.drop_zero,
      List.mem_append, List.mem_singleton] at hw
    rcases hw with hw | hw
    · rw [List.eq_of_mem_replicate hw]; rfl
    · rw [hw]; rfl
  · rintro ⟨w, hw, hcount⟩
    simp only [List.cons_append, List.nil_append, List.drop_succ_cons, List.drop_zero,
      List.mem_append, List.mem_singleton] at hw
    rcases hw with hw | hw
    · rw [List.eq_of_mem_replicate hw] at hcount
      exact absurd hcount (by norm_num [mkWindow])
    · rw [hw] at hcount
      exact absurd hcount (by norm_num [mkWindow])

/-- One cap-respecting `record` call with a non-negative count preserves
the peak-consistency invariant and grows the windows list by one. -/
theorem peakInv_record_step (s : KeywordHistory) (c : RecordCall)
    (hlen : s.windows.length + 1 ≤ HISTORY_WINDOWS) (_hc : 0 ≤ c.count)
    (hinv : PeakInv s) : PeakInv (record (some s) c) ∧
      (record (some s) c).windows.length = s.windows.length + 1 := by
  by_cases hpk : s.peak_count < c.count
  · rw [record_no_evict_peak s c hlen hpk]
    refine ⟨⟨?_, ?_⟩, by simp⟩
    · intro w hw
      dsimp only at hw ⊢
      rcases List.mem_append.mp hw with h | h
      · exact le_of_lt (lt_of_le_of_lt (hinv.1 w h) hpk)
      · rw [List.mem_singleton.mp h]; exact le_refl _
    · exact ⟨mkWindow c, List.mem_append_right _ (List.mem_singleton_self _), rfl, rfl⟩
  · rw [record_no_evict_no_peak s c hlen hpk]
    refine ⟨⟨?_, ?_⟩, by simp⟩
    · intro w hw
      dsimp only at hw ⊢
      rcases List.mem_append.mp hw with h | h
      · exact hinv.1 w h
      · rw [List.mem_singleton.mp h]; exact le_of_not_lt hpk
    · obtain ⟨w, hw, ht, hcw⟩ := hinv.2
      exact ⟨w, List.mem_append_left _ hw, ht, hcw⟩

/-- The first `record` call for a keyword establishes the
peak-consistency invariant. -/
theorem peakInv_record_first (c : RecordCall) (hc : 0 ≤ c.count) :
    PeakInv (record none c) ∧ (record none c).windows.length = 1 := by
  by_cases hpos : 0 < c.count
  · rw [record_first c hpos]
    refine ⟨⟨?_, ?_⟩, rfl⟩
    · intro w hw; rw [List.mem_singleton.mp hw]; exact le_refl _
    · exact ⟨mkWindow c, List.mem_singleton_self _, rfl, rfl⟩
  · rw [record_first_nonpos c hpos]
    have hz : c.count = 0 := le_antisymm (not_lt.mp hpos) hc
    refine ⟨⟨?_, ?_⟩, rfl⟩
    · intro w hw; rw [List.mem_singleton.mp hw]
      dsimp only [mkWindow]; omega
    · exact ⟨mkWindow c, List.mem_singleton_self _, rfl, by dsimp only [mkWindow]; omega⟩

/-- Folding cap-respecting, non-negative `record` calls keeps the
peak-consistency invariant. -/
theorem peakInv_record_foldl (cs : List RecordCall) :
    ∀ s : KeywordHistory, PeakInv s →
      s.windows.length + cs.length ≤ HISTORY_WINDOWS →
      (∀ c' ∈ cs, 0 ≤ c'.count) →
      PeakInv (List.foldl (fun st c' => record (some st) c') s cs) ∧
      (List.foldl (fun st c' => record (some st) c') s cs).windows.length
        = s.windows.length + cs.length := by
  induction cs with
  | nil => intro s hinv _ _; exact ⟨hinv, by simp⟩
  | cons c cs ih =>
    intro s hinv hlen hcounts
    rw [List.foldl_cons]
    obtain ⟨h1, h2⟩ := peakInv_record_step s c
      (by simp only [List.length_cons] at hlen; omega)
      (hcounts c (List.mem_cons_self c cs)) hinv
    obtain ⟨h3, h4⟩ := ih _ h1
      (by rw [h2]; simp only [List.length_cons] at hlen; omega)
      (fun c' hc' => hcounts c' (List.mem_cons_of_mem _ hc'))
    refine ⟨h3, ?_⟩
    rw [h4, h2]
    simp only [List.length_cons]
    omega

/-- C3 amended: peak consistency DOES hold after every record call of any
sequence that starts from an absent keyword, uses non-negative counts,
and is short enough (≤ 144 calls) that FIFO eviction never fires: every
window's count is bounded by `peak_count` and some window carries exactly
`peak_time` and `peak_count`.  (Once eviction fires, `peak_count` remains
the all-time maximum over every count ever recorded, which can exceed
every retained window, as the counterexample shows.) -/
theorem record_peak_amendedC3 (c : RecordCall) (cs : List RecordCall)
    (hlen : cs.length + 1 ≤ HISTORY_WINDOWS) (hc : 0 ≤ c.count)
    (hcs : ∀ c' ∈ cs, 0 ≤ c'.count) :
    PeakInv (record_seq c cs) := by
  unfold record_seq
  obtain ⟨h1, h2⟩ := peakInv_record_first c hc
  exact (peakInv_record_foldl cs _ h1 (by rw [h2]; omega) hcs).1

/-- Witness for the amended C3 theorem at a concrete two-call sequence. -/
theorem record_peak_amendedC3_witness :
    PeakInv (record_seq ⟨5, [], 0, 0⟩ [⟨3, [], 0, 1⟩]) :=
  record_peak_amendedC3 ⟨5, [], 0, 0⟩ [⟨3, [], 0, 1⟩]
    (by norm_num [HISTORY_WINDOWS]) (by norm_num)
    (by intro c' hc'; rw [List.mem_singleton.mp hc']; norm_num)

/- ==================== C9: corrupt history file ==================== -/

/-- C9 confirmed: when the history file exists but reading or JSON
decoding fails, the constructor catches the exception and leaves
`self.data` as the empty map (likewise when the file is absent), a
successful decode is taken verbatim, and the next `save` then writes the
empty map, overwriting the corrupt file. -/
theorem ts_load_corrupt_emptyC9 :
    (∀ e, ts_load (some (Except.error e)) = []) ∧ ts_load none = [] ∧
    (∀ d, ts_load (some (Except.ok d)) = d) ∧
    (∀ e, ts_save (ts_load (some (Except.error e))) = []) :=
  ⟨fun _ => rfl, rfl, fun _ => rfl, fun _ => rfl⟩

/- ==================== C10: merging trends into news.json ==================== -/

/-- C10 confirmed: when any trends exist, `merge_trends_to_news` first
removes every previously inserted discovered-trend item (source
`🔬 热点发现`) from the carried-over items, and every synthetic item it
appends comes from one of the first 30 trends with `heat_score ≥ 10`, so
at most 30 are inserted; every remaining discovered-source item is one of
the fresh insertions. -/
theorem merge_trends_filtersC10 (news_items : List NewsItem) (trends : List TrendTopic)
    (now : String) (h : trends ≠ []) :
    ∃ kept added : List NewsItem,
      merge_trends_to_news news_items trends now = some (kept ++ added) ∧
      (∀ n ∈ kept, n ∈ news_items ∧ n.source ≠ "🔬 热点发现") ∧
      (∀ n ∈ added, n.source = "🔬 热点发现" ∧
        ∃ t ∈ trends.take 30, 10 ≤ t.heat_score ∧ n = mkTrendNewsItem t now) ∧
      added.length ≤ 30 := by
  refine ⟨news_items.filter (fun n => n.source ≠ "🔬 热点发现"),
    ((trends.take 30).filter (fun t => ¬ t.heat_score < 10)).map
      (fun t => mkTrendNewsItem t now), ?_, ?_, ?_, ?_⟩
  · unfold merge_trends_to_news
    rw [if_neg h]
  · intro n hn
    have hm := List.mem_filter.mp hn
    exact ⟨hm.1, by simpa using hm.2⟩
  · intro n hn
    obtain ⟨t, ht, rfl⟩ := List.mem_map.mp hn
    have htf := List.mem_filter.mp ht
    refine ⟨rfl, t, htf.1, ?_, rfl⟩
    have hh := htf.2
    simp only [decide_eq_true_eq, not_lt] at hh
    exact hh
  · calc (((trends.take 30).filter (fun t => ¬ t.heat_score < 10)).map
        (fun t => mkTrendNewsItem t now)).length
        = ((trends.take 30).filter (fun t => ¬ t.heat_score < 10)).length :=
          List.length_map _ _
      _ ≤ (trends.take 30).length := List.length_filter_le _ _
      _ ≤ 30 := by rw [List.length_take]; exact min_le_left _ _

/-- Witness for the merge theorem at a concrete non-empty trend list. -/
theorem merge_trends_filtersC10_witness :
    ∃ kept added : List NewsItem,
      merge_trends_to_news [] [sampleTrend] "now" = some (kept ++ added) ∧
      (∀ n ∈ kept, n ∈ ([] : List NewsItem) ∧ n.source ≠ "🔬 热点发现") ∧
      (∀ n ∈ added, n.source = "🔬 热点发现" ∧
        ∃ t ∈ ([sampleTrend] : List TrendTopic).take 30, 10 ≤ t.heat_score ∧
          n = mkTrendNewsItem t "now") ∧
      added.length ≤ 30 :=
  merge_trends_filtersC10 [] [sampleTrend] "now" (by simp)

/- ==================== C8: keyword fusion ==================== -/

/-- C8 confirmed: in the fusion step of batch extraction, every word's
fused score is the sum of its TF-IDF and TextRank weights times 1.5
exactly when the word occurs in both top-sets; hence with non-negative
weights a word in both sets scores at least the plain sum; and the
returned list is a top-k prefix of the fused ranking: sorted by fused
score descending, with every omitted candidate scoring no more than any
returned entry. -/
theorem batch_extract_fusionC8 :
    (∀ tfidf_kws textrank_kws w, fusedScore tfidf_kws textrank_kws w =
        (dictGet tfidf_kws w 0 + dictGet textrank_kws w 0) *
          (if inTopSet tfidf_kws w ∧ inTopSet textrank_kws w then 1.5 else 1)) ∧
    (∀ tfidf_kws textrank_kws w, inTopSet tfidf_kws w → inTopSet textrank_kws w →
        0 ≤ dictGet tfidf_kws w 0 → 0 ≤ dictGet textrank_kws w 0 →
        dictGet tfidf_kws w 0 + dictGet textrank_kws w 0
          ≤ fusedScore tfidf_kws textrank_kws w) ∧
    (∀ tfidf_kws textrank_kws k,
        List.Sorted scoreGE (batch_extract_keywords tfidf_kws textrank_kws k)) ∧
    (∀ tfidf_kws textrank_kws k w,
        w ∈ tfidf_kws.map Prod.fst ++ textrank_kws.map Prod.fst →
        (w, fusedScore tfidf_kws textrank_kws w)
            ∈ batch_extract_keywords tfidf_kws textrank_kws k ∨
        (∀ p ∈ batch_extract_keywords tfidf_kws textrank_kws k,
          fusedScore tfidf_kws textrank_kws w ≤ p.2)) := by
  refine ⟨?_, ?_, ?_, ?_⟩
  · intro tf tr w
    unfold fusedScore
    split_ifs <;> ring
  · intro tf tr w h1 h2 h3 h4
    unfold fusedScore
    rw [if_pos ⟨h1, h2⟩]
    nlinarith [add_nonneg h3 h4]
  · intro tf tr k
    unfold batch_extract_keywords
    exact (List.sorted_insertionSort scoreGE _).sublist (List.take_sublist _ _)
  · intro tf tr k w hw
    set scores := ((tf.map Prod.fst ++ tr.map Prod.fst).dedup).map
      (fun v => (v, fusedScore tf tr v)) with hscores
    set L := List.insertionSort scoreGE scores with hL
    have hsorted : List.Sorted scoreGE L := List.sorted_insertionSort scoreGE scores
    have hmem : (w, fusedScore tf tr w) ∈ L := by
      rw [hL, (List.perm_insertionSort scoreGE scores).mem_iff, hscores]
      exact List.mem_map.mpr ⟨w, List.mem_dedup.mpr hw, rfl⟩
    have hbatch : batch_extract_keywords tf tr k = L.take k := by
      unfold batch_extract_keywords
      rw [hL, hscores]
    have hps : List.Pairwise scoreGE (L.take k ++ L.drop k) := by
      rw [List.take_append_drop]; exact hsorted
    rw [hbatch]
    rcases (List.mem_append.mp
        (show (w, fusedScore tf tr w) ∈ L.take k ++ L.drop k by
          rw [List.take_append_drop]; exact hmem)) with h | h
    · exact Or.inl h
    · refine Or.inr ?_
      intro p hp
      exact (List.pairwise_append.mp hps).2.2 p hp _ h

/-- Witness for the fusion theorem at concrete one-entry top-sets. -/
theorem batch_extract_fusionC8_witness :
    (dictGet [("a", (1 : ℚ))] "a" 0 + dictGet [("a", (2 : ℚ))] "a" 0
      ≤ fusedScore [("a", (1 : ℚ))] [("a", (2 : ℚ))] "a") ∧
    ((("a", fusedScore [("a", (1 : ℚ))] [("a", (2 : ℚ))] "a")
        ∈ batch_extract_keywords [("a", (1 : ℚ))] [("a", (2 : ℚ))] 1) ∨
      (∀ p ∈ batch_extract_keywords [("a", (1 : ℚ))] [("a", (2 : ℚ))] 1,
        fusedScore [("a", (1 : ℚ))] [("a", (2 : ℚ))] "a" ≤ p.2)) :=
  ⟨batch_extract_fusionC8.2.1 [("a", 1)] [("a", 2)] "a" rfl rfl
      (by norm_num [dictGet]) (by norm_num [dictGet]),
    batch_extract_fusionC8.2.2.2 [("a", 1)] [("a", 2)] 1 "a" (by simp)⟩

/- ==================== C7: 401 blocking and block monotonicity ==================== -/

/-- `wait` never changes which domains are blocked. -/
theorem is_blocked_wait (rl : RateLimiter) (x d : String) (now : ℚ) :
    (rl.wait d now).is_blocked x = rl.is_blocked x := by
  unfold RateLimiter.wait
  split_ifs <;> rfl

/-- `record_fail` never changes which domains are blocked. -/
theorem is_blocked_record_fail (rl : RateLimiter) (x d : String) :
    ((rl.record_fail d).1).is_blocked x = rl.is_blocked x := rfl

/-- `reset_fail` never changes which domains are blocked. -/
theorem is_blocked_reset_fail (rl : RateLimiter) (x d : String) :
    (rl.reset_fail d).is_blocked x = rl.is_blocked x := rfl

/-- `penalize` never changes which domains are blocked. -/
theorem is_blocked_penalize (rl : RateLimiter) (x d : String) (f : ℚ) :
    (rl.penalize d f).is_blocked x = rl.is_blocked x := rfl

/-- `reset_penalty` never changes which domains are blocked. -/
theorem is_blocked_reset_penalty (rl : RateLimiter) (x d : String) :
    (rl.reset_penalty d).is_blocked x = rl.is_blocked x := by
  unfold RateLimiter.reset_penalty
  split_ifs <;> rfl

/-- `block` never unblocks: a blocked domain stays blocked. -/
theorem is_blocked_block_mono (rl : RateLimiter) (x d r : String)
    (h : rl.is_blocked x = true) : (rl.block d r).is_blocked x = true := by
  unfold RateLimiter.block
  split_ifs with hb
  · exact h
  · unfold RateLimiter.is_blocked at h ⊢
    simp only [List.any_cons, Bool.or_eq_true]
    exact Or.inr h

/-- `block d` blocks `d` itself. -/
theorem is_blocked_block_self (rl : RateLimiter) (d r : String) :
    (rl.block d r).is_blocked d = true := by
  unfold RateLimiter.block
  split_ifs with hb
  · exact hb
  · unfold RateLimiter.is_blocked
    simp

/-- Every limiter operation preserves blocked-ness of every domain. -/
theorem is_blocked_mono_op (rl : RateLimiter) (x : String) (op : LimiterOp)
    (h : rl.is_blocked x = true) : (applyLimiterOp rl op).is_blocked x = true := by
  cases op with
  | block d r => exact is_blocked_block_mono rl x d r h
  | recordFail d => rw [applyLimiterOp, is_blocked_record_fail]; exact h
  | resetFail d => rw [applyLimiterOp, is_blocked_reset_fail]; exact h
  | wait d now => rw [applyLimiterOp, is_blocked_wait]; exact h
  | penalize d f => rw [applyLimiterOp, is_blocked_penalize]; exact h
  | resetPenalty d => rw [applyLimiterOp, is_blocked_reset_penalty]; exact h

/-- Whatever happens inside the retry loop, a blocked domain never
becomes unblocked. -/
theorem attemptRequests_blocked_mono (d x : String) (net : ℕ → NetOutcome) (m : ℕ) :
    ∀ (fuel attempt made : ℕ) (rl : RateLimiter), rl.is_blocked x = true →
      (attemptRequests rl d net m attempt made fuel).1.is_blocked x = true := by
  intro fuel
  induction fuel with
  | zero =>
    intro attempt made rl h
    rw [attemptRequests]
    exact h
  | succ n ih =>
    intro attempt made rl h
    rw [attemptRequests]
    have hw : ((rl.wait d (attempt : ℚ)).is_blocked x) = true := by
      rw [is_blocked_wait]; exact h
    cases hnet : net attempt with
    | exn => exact ih _ _ _ hw
    | response status ra =>
      dsimp only
      split_ifs <;>
        first
          | exact ih _ _ _ hw
          | exact ih _ _ _ (by rw [is_blocked_record_fail]; exact hw)
          | exact ih _ _ _ (by rw [is_blocked_penalize, is_blocked_record_fail]; exact hw)
          | exact ih _ _ _ (by rw [is_blocked_penalize]; exact hw)
          | (dsimp only; exact is_blocked_block_mono _ _ _ _
              (by rw [is_blocked_record_fail]; exact hw))
          | (dsimp only; rw [is_blocked_reset_fail, is_blocked_reset_penalty]; exact hw)
          | exact is_blocked_block_mono _ _ _ _ hw
          | exact hw

/-- An attempt whose response is HTTP 401 returns None with exactly that
one request made, and leaves the host blocked. -/
theorem attemptRequests_401 (rl : RateLimiter) (d : String) (net : ℕ → NetOutcome)
    (m fuel attempt made : ℕ) (ra : Option ℕ)
    (h : net attempt = NetOutcome.response 401 ra) :
    (attemptRequests rl d net m attempt made (fuel + 1)).2.1 = none ∧
    (attemptRequests rl d net m attempt made (fuel + 1)).2.2 = made + 1 ∧
    (attemptRequests rl d net m attempt made (fuel + 1)).1.is_blocked d = true := by
  rw [attemptRequests, h]
  dsimp only [RateLimiter.record_fail]
  rw [if_pos rfl, if_pos (Nat.le_add_left 1 _)]
  exact ⟨rfl, rfl, is_blocked_block_self _ _ _⟩

/-- C7 confirmed: (a) any attempt of `safe_request` that receives HTTP
401 performs only that single request, blocks the host, and returns None
without retrying; (b) a call for an already-blocked host returns None
immediately, with zero requests performed and an unchanged limiter; (c)
no sequence of rate-limiter operations ever clears a block within the
process; (d) `safe_request` itself never clears a block either. -/
theorem safe_request_401_blockC7 :
    (∀ (rl : RateLimiter) (d : String) (net : ℕ → NetOutcome)
        (attempt made fuel : ℕ) (ra : Option ℕ),
      net attempt = NetOutcome.response 401 ra →
      (attemptRequests rl d net 3 attempt made (fuel + 1)).2.1 = none ∧
      (attemptRequests rl d net 3 attempt made (fuel + 1)).2.2 = made + 1 ∧
      (attemptRequests rl d net 3 attempt made (fuel + 1)).1.is_blocked d = true) ∧
    (∀ (rl : RateLimiter) (d : String) (net : ℕ → NetOutcome),
      rl.is_blocked d = true → safe_request rl d net = (rl, none, 0)) ∧
    (∀ (rl : RateLimiter) (x : String) (ops : List LimiterOp),
      rl.is_blocked x = true → (applyLimiterOps rl ops).is_blocked x = true) ∧
    (∀ (rl : RateLimiter) (d x : String) (net : ℕ → NetOutcome),
      rl.is_blocked x = true → ((safe_request rl d net).1).is_blocked x = true) := by
  refine ⟨?_, ?_, ?_, ?_⟩
  · intro rl d net attempt made fuel ra h
    exact attemptRequests_401 rl d net 3 fuel attempt made ra h
  · intro rl d net h
    unfold safe_request
    rw [if_pos h]
  · intro rl x ops h
    induction ops generalizing rl with
    | nil => exact h
    | cons op ops ih =>
      unfold applyLimiterOps
      rw [List.foldl_cons]
      exact ih (applyLimiterOp rl op) (is_blocked_mono_op rl x op h)
  · intro rl d x net h
    unfold safe_request
    split_ifs with hb
    · exact h
    · exact attemptRequests_blocked_mono d x net 3 3 0 0 rl h

/-- Witness: with host `h` already blocked, a further call returns None
after zero requests; and from a fresh limiter a 401 response on the first
attempt yields None, one request, and a blocked host. -/
theorem safe_request_401_blockC7_witness :
    (safe_request ⟨[], [], [("h", "401 login required")], []⟩ "h"
        (fun _ => NetOutcome.response 200 none)
      = (⟨[], [], [("h", "401 login required")], []⟩, none, 0)) ∧
    ((attemptRequests ⟨[], [], [], []⟩ "h"
        (fun _ => NetOutcome.response 401 none) 3 0 0 1).2.1 = none ∧
     (attemptRequests ⟨[], [], [], []⟩ "h"
        (fun _ => NetOutcome.response 401 none) 3 0 0 1).2.2 = 0 + 1 ∧
     (attemptRequests ⟨[], [], [], []⟩ "h"
        (fun _ => NetOutcome.response 401 none) 3 0 0 1).1.is_blocked "h" = true) :=
  ⟨safe_request_401_blockC7.2.1 ⟨[], [], [("h", "401 login required")], []⟩ "h"
      (fun _ => NetOutcome.response 200 none) (by decide),
    safe_request_401_blockC7.1 ⟨[], [], [], []⟩ "h"
      (fun _ => NetOutcome.response 401 none) 0 0 0 none rfl⟩

/- ==================== C5: MACD detection ==================== -/

/-- The EMA of a series has the same length as the series. -/
theorem length_ema (values : List ℚ) (p : ℕ) : (ema values p).length = values.length := by
  cases values with
  | nil => rfl
  | cons v vs => simp [ema, List.length_scanl]

/-- C5 confirmed: `macd_detect` coincides with the claim's description on
every count series — below 26 entries it returns `(0, neutral)`;
otherwise the golden-cross / death-cross / comparison rules on
`EMA 12 − EMA 26` against its `EMA 9` signal line, evaluated at the last
two indices, decide the result and the returned value is the last MACD
entry.  In particular a series of length 20 is neutral. -/
theorem macd_detect_eq_claimC5 :
    (∀ counts : List ℤ, macd_detect counts = macd_claimC5 counts) ∧
    (∀ counts : List ℤ, counts.length = 20 → macd_detect counts = (0, "neutral")) := by
  constructor
  · intro counts
    unfold macd_detect macd_claimC5 MACD_LONG_PERIOD MACD_SHORT_PERIOD MACD_SIGNAL_PERIOD
    by_cases h : counts.length < 26
    · rw [if_pos h, if_pos h]
    · rw [if_neg h, if_neg h]
      have hn : 26 ≤ counts.length := le_of_not_lt h
      dsimp only
      set fc := counts.map (fun c : ℤ => (c : ℚ)) with hfc
      set shortE := ema fc 12 with hshort
      set longE := ema fc 26 with hlong
      set macdL := List.zipWith (fun s l => s - l) shortE longE with hmacd
      set sigL := ema macdL 9 with hsig
      have hfclen : fc.length = counts.length := List.length_map _ _
      have hmlen : macdL.length = counts.length := by
        rw [hmacd, List.length_zipWith, hshort, hlong, length_ema, length_ema, hfclen, min_self]
      have hglen : sigL.length = counts.length := by rw [hsig, length_ema, hmlen]
      have hne : ¬ (sigL = [] ∨ macdL = []) := by
        rw [not_or]
        exact ⟨List.ne_nil_of_length_pos (by rw [hglen]; omega),
          List.ne_nil_of_length_pos (by rw [hmlen]; omega)⟩
      rw [if_neg hne]
      rw [hmlen, hglen]
      rw [if_pos ⟨by omega, by omega⟩]
      by_cases hA : macdL[counts.length - 2]! - sigL[counts.length - 2]! ≤ 0 ∧
          0 < macdL[counts.length - 1]! - sigL[counts.length - 1]!
      · rw [if_pos hA, if_pos hA]
      · rw [if_neg hA, if_neg hA]
        by_cases hB : 0 ≤ macdL[counts.length - 2]! - sigL[counts.length - 2]! ∧
            macdL[counts.length - 1]! - sigL[counts.length - 1]! < 0
        · rw [if_pos hB, if_pos hB]
        · rw [if_neg hB, if_neg hB]
  · intro counts h20
    unfold macd_detect MACD_LONG_PERIOD
    rw [if_pos (by omega)]

/-- Witness: a concrete length-20 series is classified neutral. -/
theorem macd_detect_eq_claimC5_witness :
    macd_detect (List.replicate 20 (3 : ℤ)) = (0, "neutral") :=
  macd_detect_eq_claimC5.2 (List.replicate 20 3) (by simp)

/- ==================== C1: heat score ==================== -/

/-- C1 counterexample: the claim rounds AFTER the burst/bullish
multipliers, the code rounds inside `compute_heat`, BEFORE them.  With
frequency 0, acceleration 0, no platforms, normalized engagement 1/30,
zero hours since peak and `is_burst`, the code's final heat score is
0.075 — not a two-decimal value at all — while the claimed formula gives
round2(0.075) = 0.08. -/
theorem heat_score_claimC1_counterexample :
    heat_score_final 0 0 0 (1/30) 0 true "neutral" = 3/40 ∧
    heat_score_claimC1 0 0 0 (1/30) 0 true "neutral" = 2/25 ∧
    (3/40 : ℝ) ≠ 2/25 := by
  have hne : ("neutral" : String) = "bullish" ↔ False := iff_false_intro (by decide)
  refine ⟨?_, ?_, by norm_num⟩
  · unfold heat_score_final compute_heat apply_boosts round2 ALPHA BETA GAMMA DELTA
    norm_num [round_eq, hne]
  · unfold heat_score_claimC1 round2 clampR
    norm_num [round_eq, hne]

/-- C1 amended: for all inputs, the stored heat score equals the claimed
formula with the two-decimal rounding moved BEFORE the ×1.5 burst and
×1.2 bullish multipliers (each product still clamped to 100), and no
rounding afterwards. -/
theorem heat_score_eq_amendedC1 (freq : ℤ) (acc : ℝ) (src : ℕ) (eng hsp : ℝ)
    (b : Bool) (sig : String) :
    heat_score_final freq acc src eng hsp b sig
      = heat_score_amendedC1 freq acc src eng hsp b sig := by
  have hcore : compute_heat freq acc src eng hsp
      = round2 (min 100 (15 * (0.4 * min ((freq : ℝ) * Real.exp (-(Real.log 2 / 4) * hsp) / 10) 10
          + 0.3 * max 0 (clampR (-5) 5 (acc / 5))
          + 0.2 * ((src : ℝ) / 3)
          + 0.1 * min eng 1))) := by
    unfold compute_heat clampR ALPHA BETA GAMMA DELTA LAMBDA_DECAY HALF_LIFE_HOURS
    rw [max_comm (-5 : ℝ) (min (acc / 5) 5)]
    norm_num
    ring_nf
  unfold heat_score_final apply_boosts heat_score_amendedC1
  rw [hcore]

/- ==================== C2: z-score burst detection ==================== -/

/-- C2 counterexample: the claim divides by `max(σ, 1)`, the code divides
by `σ` itself whenever `σ > 0`.  For `[5, 6, 5]` the historical part
`[5, 6]` has σ = 1/2, so the code returns z = −1 while the claimed
formula gives z = −1/2. -/
theorem z_score_claimC2_counterexample :
    (z_score_detect [5, 6, 5]).1 = -1 ∧
    (z_score_claimC2 [5, 6, 5]).1 = -(1/2) ∧
    ((-1 : ℝ) ≠ -(1/2)) := by
  have hdrop : ([5, 6, 5] : List ℤ).dropLast = [5, 6] := rfl
  have hcur : (([5, 6, 5] : List ℤ)[([5, 6, 5] : List ℤ).length - 1]!) = 5 := rfl
  have hmean : seriesMean [5, 6] = 11/2 := by
    unfold seriesMean
    norm_num
  have hvar : seriesVariance [5, 6] (11/2) = 1/4 := by
    unfold seriesVariance
    norm_num
  have hsqrt : Real.sqrt (1/4) = 1/2 := by
    rw [show (1/4 : ℝ) = (1/2)^2 by norm_num, Real.sqrt_sq (by norm_num : (0:ℝ) ≤ 1/2)]
  refine ⟨?_, ?_, by norm_num⟩
  · unfold z_score_detect
    rw [if_neg (by norm_num)]
    dsimp only
    rw [hdrop, hcur, hmean, hvar, if_pos (by norm_num : (0:ℝ) < 1/4), hsqrt]
    rw [if_pos (by norm_num : (0:ℝ) < 1/2)]
    norm_num
  · unfold z_score_claimC2
    rw [if_neg (by norm_num)]
    dsimp only
    rw [hdrop, hcur, hmean, hvar, hsqrt]
    rw [max_eq_right (by norm_num : (1/2 : ℝ) ≤ 1)]
    norm_num

/-- C2 amended: for every count series, `z_score_detect` returns `(0,
false)` below three entries, and otherwise `z = (x[n−1] − μ)` divided by
σ when σ > 0 and by 1 when σ = 0 (NOT by `max(σ, 1)`), with burst iff
`z > 2.5`. -/
theorem z_score_detect_eq_amendedC2 (counts : List ℤ) :
    z_score_detect counts = z_score_amendedC2 counts := by
  unfold z_score_detect z_score_amendedC2 BURST_Z_THRESHOLD
  by_cases h : counts.length < 3
  · rw [if_pos h, if_pos h]
  · rw [if_neg h, if_neg h]
    dsimp only
    set m := seriesMean counts.dropLast with hm
    set v := seriesVariance counts.dropLast m with hv
    have hvnn : 0 ≤ v := by
      rw [hv]
      unfold seriesVariance
      apply div_nonneg
      · apply List.sum_nonneg
        intro x hx
        obtain ⟨y, hy, rfl⟩ := List.mem_map.mp hx
        positivity
      · positivity
    by_cases hpos : 0 < v
    · rw [if_pos hpos]
      have hs : 0 < Real.sqrt v := Real.sqrt_pos.mpr hpos
      rw [if_pos hs, if_pos hs]
    · rw [if_neg hpos]
      have hv0 : v = 0 := le_antisymm (not_lt.mp hpos) hvnn
      have hs : Real.sqrt v = 0 := by rw [hv0, Real.sqrt_zero]
      rw [if_pos (by norm_num : (0:ℝ) < 1)]
      rw [if_neg (by rw [hs]; exact lt_irrefl 0)]
